import Mathlib

/-!
A shallow embedding of the client-side session store and query dispatcher of
the `google-chat` repository (file `src/unnamed/part_004`, the
`useChatSessions` hook), together with proofs of the specification claims.

Two layers are modelled:

* the session store (`createNewSession`, `deleteSession`, the load effect,
  `getChatTitle`), whose messages have `content : String` as in the
  TypeScript `ChatMessage` interface;
* the query dispatcher (`handleSendMessage`), whose fetched payloads are
  untyped JavaScript values, modelled by the `Json` type, and whose effects
  (messages appended, backoff delays awaited, loading-flag writes) are
  recorded in an explicit trace.
-/

namespace GoogleChat

/-- A JavaScript value as produced by `response.json()`: any JSON value.
`undefined` (the result of a missing property access) is modelled by
`Option Json` with `none`, not by a constructor. -/
inductive Json where
  | null
  | bool (b : Bool)
  | num (q : Rat)
  | str (s : String)
  | arr (elems : List Json)
  | obj (fields : List (String × Json))
deriving Repr

/-- JavaScript property access `data[key]` for a non-null base value:
on an object it looks the key up, on any other non-null value it yields
`undefined` (`none`).  Access on `null` throws and is handled separately
in `safeData`. -/
def jsField (data : Json) (key : String) : Option Json :=
  match data with
  | .obj fields => fields.lookup key
  | _ => none

/-- JavaScript truthiness of a value. -/
def jsTruthy : Json → Bool
  | .null => false
  | .bool b => b
  | .num q => decide (q ≠ 0)
  | .str s => decide (s ≠ "")
  | .arr _ => true
  | .obj _ => true

/-- Truthiness of a possibly-`undefined` value (`undefined` is falsy). -/
def jsTruthyOpt : Option Json → Bool
  | none => false
  | some v => jsTruthy v

/-- `Array.isArray(v) ? v : []` applied to a possibly-`undefined` value:
the field-level defaulting used for every array field of the payload. -/
def arrayOrEmpty (v : Option Json) : List Json :=
  match v with
  | some (.arr xs) => xs
  | _ => []

/-- `v || null`: the defaulting used for `knowledge_graph`. -/
def orNull (v : Option Json) : Json :=
  match v with
  | some w => if jsTruthy w then w else .null
  | none => .null

/-- The templated fallback summary embedded in `safeData`
(`I searched for "${query}" but couldn't generate a good summary.`). -/
def fallbackSummary (query : String) : String :=
  "I searched for \"" ++ query ++ "\" but couldn't generate a good summary."

/-- `v || fallback`: the truthiness-based defaulting used for `ai_response`. -/
def orFallback (v : Option Json) (query : String) : Json :=
  match v with
  | some w => if jsTruthy w then w else .str (fallbackSummary query)
  | none => .str (fallbackSummary query)

/-- The normalized result object built by `handleSendMessage`
(the `safeData` object literal). -/
structure SafeData where
  organic_results : List Json
  knowledge_graph : Json
  related_questions : List Json
  related_searches : List Json
  ai_response : Json
  local_results : List Json
deriving Repr

/-- The construction of the `safeData` object from the parsed body.  When the
body parsed to `null`, the very first property access
(`data.organic_results`) throws a `TypeError`, which lands in the retry
`catch`; this is modelled by `Except.error`. -/
def safeData (query : String) (data : Json) : Except Unit SafeData :=
  match data with
  | .null => .error ()
  | _ => .ok
    { organic_results := arrayOrEmpty (jsField data "organic_results")
      knowledge_graph := orNull (jsField data "knowledge_graph")
      related_questions := arrayOrEmpty (jsField data "related_questions")
      related_searches := arrayOrEmpty (jsField data "related_searches")
      ai_response := orFallback (jsField data "ai_response") query
      local_results := arrayOrEmpty (jsField data "local_results") }

/-- Message roles. -/
inductive Role where
  | user
  | assistant
deriving DecidableEq, Repr

/-- A chat message as appended by the dispatcher.  The content is a dynamic
JavaScript value because `safeData.ai_response` is untyped at runtime. -/
structure Msg where
  role : Role
  content : Json
  results : Option SafeData := none

/-- The fixed connectivity-trouble notice appended after the final failure. -/
def connectivityNotice : String :=
  "I'm having trouble connecting to the search service. This might be due to rate limiting or a temporary issue. Please try again in a moment."

/-- The user message appended synchronously before the retry loop. -/
def userMsg (query : String) : Msg :=
  { role := .user, content := .str query }

/-- `String.prototype.trim`, modelled on the character list (the compose
control only submits when `message.trim()` is truthy). -/
def jsTrim (s : String) : String :=
  String.mk (((s.data.dropWhile Char.isWhitespace).reverse.dropWhile
    Char.isWhitespace).reverse)

/-- The assistant message appended when all retries are exhausted. -/
def failureMsg : Msg :=
  { role := .assistant, content := .str connectivityNotice }

/-- One fetch attempt's observable outcome: `fail` covers a network failure,
a non-ok HTTP status, or a body that is not valid JSON (all of which throw
before the normalization); `ok data` is a parsed success body. -/
inductive FetchOutcome where
  | fail
  | ok (data : Json)

/-- The body of the `try` block for attempt `i`: throwing paths are
`Except.error` (including the `TypeError` raised by normalizing a `null`
body), and the success path yields the assistant message that is appended. -/
def attemptOutcome (env : Nat → FetchOutcome) (query : String) (i : Nat) :
    Except Unit Msg :=
  match env i with
  | .fail => .error ()
  | .ok data =>
    match safeData query data with
    | .error e => .error e
    | .ok sd => .ok { role := .assistant, content := sd.ai_response, results := some sd }

/-- The effects of the retry loop: attempts made, backoff delays awaited (in
milliseconds, in order), messages appended, number of `setIsLoading(false)`
writes performed by the `finally` clause, and the final `success` flag. -/
structure LoopResult where
  attempts : Nat
  delays : List Nat
  appended : List Msg
  loadingClears : Nat
  success : Bool

/-- The `while (retryCount < maxRetries && !success)` loop of
`handleSendMessage`, with `fuel` bounding the remaining iterations
(`maxRetries - retryCount` suffices, since each iteration either succeeds,
exhausts the retries, or increments `retryCount`). -/
def sendLoop (env : Nat → FetchOutcome) (query : String) (maxRetries : Nat) :
    Nat → Nat → LoopResult
  | _retryCount, 0 =>
    { attempts := 0, delays := [], appended := [], loadingClears := 0, success := false }
  | retryCount, fuel + 1 =>
    if retryCount < maxRetries then
      match attemptOutcome env query retryCount with
      | .ok msg =>
        { attempts := 1, delays := [], appended := [msg], loadingClears := 1, success := true }
      | .error _ =>
        if maxRetries ≤ retryCount + 1 then
          { attempts := 1, delays := [], appended := [failureMsg], loadingClears := 1,
            success := false }
        else
          let rest := sendLoop env query maxRetries (retryCount + 1) fuel
          { attempts := rest.attempts + 1,
            delays := 2 ^ (retryCount + 1) * 1000 :: rest.delays,
            appended := rest.appended,
            loadingClears := rest.loadingClears,
            success := rest.success }
    else
      { attempts := 0, delays := [], appended := [], loadingClears := 0, success := false }

/-- `const maxRetries = 3`. -/
def maxRetries : Nat := 3

/-- The full observable trace of a `handleSendMessage(query)` dispatch, for a
given environment `env` assigning an outcome to each fetch attempt. -/
structure DispatchTrace where
  messagesAppended : List Msg
  delays : List Nat
  attempts : Nat
  loadingWrites : List Bool
  success : Bool

/-- `handleSendMessage`: appends the user message, sets the loading flag, and
runs the retry loop from `retryCount = 0`. -/
def handleSendMessage (env : Nat → FetchOutcome) (query : String) : DispatchTrace :=
  let r := sendLoop env query maxRetries 0 maxRetries
  { messagesAppended := userMsg query :: r.appended
    delays := r.delays
    attempts := r.attempts
    loadingWrites := true :: List.replicate r.loadingClears false
    success := r.success }

/-! ### The session store -/

/-- A chat message as stored in a session (`ChatMessage` interface:
`content : string`; the optional `results` field is never inspected by the
store). -/
structure ChatMessage where
  role : Role
  content : String
  results : Option SafeData := none

/-- A chat session (`ChatSession` interface). -/
structure ChatSession where
  id : String
  title : String
  messages : List ChatMessage
  createdAt : Nat
  updatedAt : Nat

/-- `Math.random().toString(36).substring(2, 10)` produces an opaque random
id; the spec treats ids as opaque and unique, so the random supply is
modelled as an injective fresh-name supply indexed by a counter. -/
def generateId (n : Nat) : String := String.mk (List.replicate n 'i')

/-- The hook's state: session list, active session id (`null` = `none`),
active message buffer, loading flag, and the fresh-id counter standing for
the random id supply. -/
structure StoreState where
  sessions : List ChatSession
  activeSessionId : Option String
  messages : List ChatMessage
  isLoading : Bool := false
  nextId : Nat

/-- The state before the mount effect runs: all `useState` initial values. -/
def initialState : StoreState :=
  { sessions := [], activeSessionId := none, messages := [], isLoading := false, nextId := 0 }

/-- `createNewSession`: a fresh session is prepended, made active, and the
active buffer is cleared. -/
def createNewSession (now : Nat) (st : StoreState) : StoreState :=
  let newSession : ChatSession :=
    { id := generateId st.nextId, title := "New Chat", messages := [],
      createdAt := now, updatedAt := now }
  { st with sessions := newSession :: st.sessions
            activeSessionId := some newSession.id
            messages := []
            nextId := st.nextId + 1 }

/-- `getChatTitle`: `content.slice(0, 30)` modelled on the character list. -/
def strSlice (s : String) (n : Nat) : String := String.mk (s.data.take n)

/-- `getChatTitle`: title from the first user message, truncated to 30
characters with a trailing `...` marker when truncation occurred. -/
def getChatTitle (messages : List ChatMessage) : String :=
  match messages.find? (fun m => m.role == Role.user) with
  | some firstUserMessage =>
    let title := strSlice firstUserMessage.content 30
    if title.length < firstUserMessage.content.length then title ++ "..." else title
  | none => "New Chat"

/-- `deleteSession(sessionId)`: filters the session out; when the deleted
session was active, the first remaining session becomes active (its messages
loaded), or a fresh session is created when none remain. -/
def deleteSession (now : Nat) (st : StoreState) (sessionId : String) : StoreState :=
  let remainingSessions := st.sessions.filter (fun s => !(s.id == sessionId))
  if st.activeSessionId == some sessionId then
    match remainingSessions with
    | nextSession :: _ =>
      { st with sessions := remainingSessions
                activeSessionId := some nextSession.id
                messages := nextSession.messages }
    | [] => createNewSession now { st with sessions := remainingSessions }
  else
    { st with sessions := remainingSessions }

/-- The comparator `(a, b) => b.updatedAt - a.updatedAt` as a relation:
`a` may precede `b` when `b.updatedAt ≤ a.updatedAt`. -/
def recencyLE (a b : ChatSession) : Prop := b.updatedAt ≤ a.updatedAt

instance : DecidableRel recencyLE := fun a b => Nat.decLe b.updatedAt a.updatedAt

instance : IsTotal ChatSession recencyLE :=
  ⟨fun a b => Nat.le_total b.updatedAt a.updatedAt⟩

instance : IsTrans ChatSession recencyLE :=
  ⟨fun _ _ _ h1 h2 => Nat.le_trans h2 h1⟩

/-- `parsedSessions.sort((a, b) => b.updatedAt - a.updatedAt)`.
`Array.prototype.sort` is required to be stable, and a stable sort by a total
preorder has a unique result, so the stable `insertionSort` models it. -/
def sortByUpdatedDesc (sessionList : List ChatSession) : List ChatSession :=
  sessionList.insertionSort recencyLE

/-- The mount effect: `saved = none` models absent persisted data, otherwise
`saved = some parsedSessions` is the parsed blob.  Note that the in-place
`sort` mutates the very array passed to `setSessions`, so the stored list is
the sorted one. -/
def loadSessions (now : Nat) (st : StoreState) (saved : Option (List ChatSession)) :
    StoreState :=
  match saved with
  | some parsedSessions =>
    if 0 < parsedSessions.length then
      let sorted := sortByUpdatedDesc parsedSessions
      { st with sessions := sorted
                activeSessionId := sorted.head?.map (fun s => s.id)
                messages := (sorted.head?.map (fun s => s.messages)).getD [] }
    else
      createNewSession now { st with sessions := parsedSessions }
  | none => createNewSession now st

/-- The store's state right after a fresh start (mount with no persisted
data). -/
def initStore : StoreState := loadSessions 0 initialState none

/-- A `createSession` / `deleteSession` call (with the wall-clock time the
call happens at). -/
inductive SessionOp where
  | create (now : Nat)
  | delete (now : Nat) (id : String)

/-- Apply one session operation. -/
def applySessionOp (st : StoreState) : SessionOp → StoreState
  | .create now => createNewSession now st
  | .delete now id => deleteSession now st id

/-- Run a sequence of session operations. -/
def runSessionOps (st : StoreState) (ops : List SessionOp) : StoreState :=
  ops.foldl applySessionOp st

/-! ### Dispatcher lemmas -/

lemma attemptOutcome_role (env : Nat → FetchOutcome) (query : String) (i : Nat) (m : Msg)
    (h : attemptOutcome env query i = .ok m) : m.role = Role.assistant := by
  cases henv : env i with
  | fail => simp [attemptOutcome, henv] at h
  | ok data =>
    cases hsd : safeData query data with
    | error e => simp [attemptOutcome, henv, hsd] at h
    | ok sd =>
      simp only [attemptOutcome, henv, hsd] at h
      rw [Except.ok.injEq] at h
      subst h
      rfl

/-- The combined behaviour of the retry loop, for any suffix of the loop
starting at `retryCount = rc` with exactly `maxR - rc` iterations of fuel:
at least one and at most `fuel` attempts are made, exactly one assistant
message is appended, the `finally` clause clears the loading flag exactly
once, the backoff delays are `2 ^ (attemptNumber) * 1000` for each failed
non-final attempt, and when every attempt fails the appended message is the
connectivity notice with all `fuel` attempts used. -/
lemma sendLoop_props (env : Nat → FetchOutcome) (query : String) (maxR : Nat) :
    ∀ fuel rc, rc + fuel = maxR → rc < maxR →
      (sendLoop env query maxR rc fuel).attempts ≤ fuel ∧
      1 ≤ (sendLoop env query maxR rc fuel).attempts ∧
      (∃ m : Msg, m.role = Role.assistant ∧ (sendLoop env query maxR rc fuel).appended = [m]) ∧
      (sendLoop env query maxR rc fuel).loadingClears = 1 ∧
      (sendLoop env query maxR rc fuel).delays =
        (List.range ((sendLoop env query maxR rc fuel).attempts - 1)).map
          (fun i => 2 ^ (rc + i + 1) * 1000) ∧
      ((∀ i, rc ≤ i → i < maxR → attemptOutcome env query i = Except.error ()) →
        (sendLoop env query maxR rc fuel).appended = [failureMsg] ∧
        (sendLoop env query maxR rc fuel).attempts = fuel ∧
        (sendLoop env query maxR rc fuel).success = false) := by
  intro fuel
  induction fuel with
  | zero => intro rc h1 h2; exact absurd h1 (by omega)
  | succ fuel ih =>
    intro rc hsum hlt
    simp only [sendLoop]
    rw [if_pos hlt]
    cases hA : attemptOutcome env query rc with
    | ok msg =>
      dsimp only
      refine ⟨by omega, le_refl 1, ⟨msg, attemptOutcome_role env query rc msg hA, rfl⟩,
        rfl, by simp, ?_⟩
      intro hall
      have hcontra := hall rc (le_refl rc) hlt
      rw [hA] at hcontra
      exact absurd hcontra (by simp)
    | error e =>
      dsimp only
      by_cases hle : maxR ≤ rc + 1
      · rw [if_pos hle]
        dsimp only
        refine ⟨by omega, le_refl 1, ⟨failureMsg, rfl, rfl⟩, rfl, by simp, ?_⟩
        exact fun _ => ⟨rfl, by omega, rfl⟩
      · rw [if_neg hle]
        dsimp only
        obtain ⟨ha1, ha2, ⟨m, hm1, hm2⟩, hc, hd, hf⟩ := ih (rc + 1) (by omega) (by omega)
        refine ⟨by omega, by omega, ⟨m, hm1, hm2⟩, hc, ?_, ?_⟩
        · obtain ⟨k, hk⟩ : ∃ k, (sendLoop env query maxR (rc + 1) fuel).attempts = k + 1 :=
            ⟨(sendLoop env query maxR (rc + 1) fuel).attempts - 1, by omega⟩
          rw [hd, hk]
          simp only [Nat.add_sub_cancel, List.range_succ_eq_map, List.map_cons, List.map_map]
          rw [List.cons.injEq]
          refine ⟨by norm_num, ?_⟩
          apply List.map_congr_left
          intro a _
          simp only [Function.comp]
          have hexp : rc + 1 + a + 1 = rc + (a + 1) + 1 := by omega
          rw [hexp]
        · intro hall
          obtain ⟨hb1, hb2, hb3⟩ := hf (fun i hi1 hi2 => hall i (by omega) hi2)
          exact ⟨hb1, by omega, hb3⟩

/-- When the very first attempt succeeds with message `msg`, the whole
dispatch appends exactly the user message and `msg`, with no delays. -/
lemma handleSendMessage_first_ok (env : Nat → FetchOutcome) (query : String) (msg : Msg)
    (h : attemptOutcome env query 0 = .ok msg) :
    handleSendMessage env query =
      { messagesAppended := [userMsg query, msg], delays := [], attempts := 1,
        loadingWrites := [true, false], success := true } := by
  simp [handleSendMessage, maxRetries, sendLoop, h]

lemma handleSendMessage_attempts (env : Nat → FetchOutcome) (q : String) :
    (handleSendMessage env q).attempts = (sendLoop env q 3 0 3).attempts := rfl

lemma handleSendMessage_delays (env : Nat → FetchOutcome) (q : String) :
    (handleSendMessage env q).delays = (sendLoop env q 3 0 3).delays := rfl

lemma handleSendMessage_messages (env : Nat → FetchOutcome) (q : String) :
    (handleSendMessage env q).messagesAppended =
      userMsg q :: (sendLoop env q 3 0 3).appended := rfl

lemma handleSendMessage_loadingWrites (env : Nat → FetchOutcome) (q : String) :
    (handleSendMessage env q).loadingWrites =
      true :: List.replicate (sendLoop env q 3 0 3).loadingClears false := rfl

/-- C1: every dispatch makes at most 3 fetch attempts; after the `n`-th
failed attempt that is not the last, the loop waits `2 ^ n * 1000`
milliseconds (so the delay before retry `i` is `2 ^ (i + 1) * 1000` for the
`i`-th element of the delay list); and when all 3 attempts fail, exactly the
fixed connectivity-trouble notice is appended, the delays were 2000ms then
4000ms, and the loading flag ends false (set true once, cleared once). -/
theorem retry_backoff_and_failure_notice (env : Nat → FetchOutcome) (query : String) :
    (handleSendMessage env query).attempts ≤ 3 ∧
    (handleSendMessage env query).delays =
      (List.range ((handleSendMessage env query).attempts - 1)).map
        (fun i => 2 ^ (i + 1) * 1000) ∧
    ((∀ i, i < 3 → attemptOutcome env query i = Except.error ()) →
      (handleSendMessage env query).attempts = 3 ∧
      (handleSendMessage env query).delays = [2000, 4000] ∧
      (handleSendMessage env query).messagesAppended = [userMsg query, failureMsg] ∧
      (handleSendMessage env query).loadingWrites = [true, false]) := by
  obtain ⟨h1, h2, ⟨m, hm1, hm2⟩, h4, h5, h6⟩ :=
    sendLoop_props env query 3 3 0 rfl (by norm_num)
  rw [handleSendMessage_attempts, handleSendMessage_delays, handleSendMessage_messages,
    handleSendMessage_loadingWrites]
  refine ⟨h1, ?_, ?_⟩
  · simpa using h5
  · intro hall
    obtain ⟨hb1, hb2, hb3⟩ := h6 (fun i _ hi => hall i hi)
    refine ⟨hb2, ?_, by rw [hb1], by simp [h4]⟩
    rw [h5, hb2]
    rfl

/-- Witness for C1: with every attempt failing, the dispatch makes 3
attempts, waits 2000ms then 4000ms, appends the connectivity notice, and
ends with the loading flag false. -/
theorem retry_backoff_and_failure_notice_witness :
    (handleSendMessage (fun _ => FetchOutcome.fail) "down").attempts = 3 ∧
    (handleSendMessage (fun _ => FetchOutcome.fail) "down").delays = [2000, 4000] ∧
    (handleSendMessage (fun _ => FetchOutcome.fail) "down").messagesAppended =
      [userMsg "down", failureMsg] ∧
    (handleSendMessage (fun _ => FetchOutcome.fail) "down").loadingWrites = [true, false] :=
  (retry_backoff_and_failure_notice (fun _ => FetchOutcome.fail) "down").2.2
    (fun _ _ => rfl)

/-- C2: for every dispatch with a non-empty trimmed query, exactly one user
message `{role := user, content := query}` is appended (synchronously, at the
head of the trace, before any fetch effect), and exactly one assistant
message is appended by the time the dispatch settles. -/
theorem send_appends_one_user_one_assistant (env : Nat → FetchOutcome) (query : String)
    (hq : jsTrim query ≠ "") :
    ∃ m : Msg, m.role = Role.assistant ∧
      (handleSendMessage env query).messagesAppended = [userMsg query, m] ∧
      userMsg query = { role := Role.user, content := Json.str query, results := none } ∧
      (handleSendMessage env query).messagesAppended.countP
        (fun x => decide (x.role = Role.user)) = 1 ∧
      (handleSendMessage env query).messagesAppended.countP
        (fun x => decide (x.role = Role.assistant)) = 1 := by
  obtain ⟨h1, h2, ⟨m, hm1, hm2⟩, h4, h5, h6⟩ :=
    sendLoop_props env query 3 3 0 rfl (by norm_num)
  refine ⟨m, hm1, ?_, rfl, ?_, ?_⟩
  · rw [handleSendMessage_messages, hm2]
  · rw [handleSendMessage_messages, hm2]
    simp [List.countP_cons, userMsg, hm1]
  · rw [handleSendMessage_messages, hm2]
    simp [List.countP_cons, userMsg, hm1]

/-- Witness for C2: a successful dispatch of the query "hi". -/
theorem send_appends_one_user_one_assistant_witness :
    jsTrim "hi" ≠ "" ∧
    ∃ m : Msg, m.role = Role.assistant ∧
      (handleSendMessage (fun _ => FetchOutcome.ok (Json.obj [])) "hi").messagesAppended =
        [userMsg "hi", m] ∧
      userMsg "hi" = { role := Role.user, content := Json.str "hi", results := none } ∧
      (handleSendMessage (fun _ => FetchOutcome.ok (Json.obj [])) "hi").messagesAppended.countP
        (fun x => decide (x.role = Role.user)) = 1 ∧
      (handleSendMessage (fun _ => FetchOutcome.ok (Json.obj [])) "hi").messagesAppended.countP
        (fun x => decide (x.role = Role.assistant)) = 1 :=
  ⟨by decide,
   send_appends_one_user_one_assistant (fun _ => FetchOutcome.ok (Json.obj [])) "hi" (by decide)⟩

/-- C3: the loading flag is written `true` once at the start of the dispatch
and `false` exactly once afterwards — on the successful attempt or after the
final failure — so the dispatch never ends with the flag still true. -/
theorem loading_flag_cleared_exactly_once (env : Nat → FetchOutcome) (query : String) :
    (handleSendMessage env query).loadingWrites = [true, false] := by
  rw [handleSendMessage_loadingWrites,
    (sendLoop_props env query 3 3 0 rfl (by norm_num)).2.2.2.1]
  rfl

/-! ### Normalization of the response body -/

/-- The normalized value equals the upstream value when the upstream field is
an array, and is the empty array when the field is `undefined` or not an
array. -/
def defaultsToList (upstream : Option Json) (value : List Json) : Prop :=
  (∀ xs, upstream = some (.arr xs) → value = xs) ∧
  ((∀ xs, upstream ≠ some (.arr xs)) → value = [])

lemma defaultsToList_arrayOrEmpty (v : Option Json) : defaultsToList v (arrayOrEmpty v) := by
  constructor
  · intro xs h
    rw [h]
    rfl
  · intro h
    cases v with
    | none => rfl
    | some w => cases w <;> first | exact absurd rfl (h _) | rfl

/-- On a body that parsed to anything other than `null`, the normalization
succeeds and is given by field-level defaulting. -/
lemma safeData_eq (query : String) (data : Json) (h : data ≠ .null) :
    safeData query data = .ok
      { organic_results := arrayOrEmpty (jsField data "organic_results")
        knowledge_graph := orNull (jsField data "knowledge_graph")
        related_questions := arrayOrEmpty (jsField data "related_questions")
        related_searches := arrayOrEmpty (jsField data "related_searches")
        ai_response := orFallback (jsField data "ai_response") query
        local_results := arrayOrEmpty (jsField data "local_results") } := by
  cases data <;> first | exact absurd rfl h | rfl

/-- C4 (amended): for every successful response body whose parsed value is
not JSON `null`, the normalization never errors, and each of the four array
fields equals the upstream value when it is an array and the empty array
when it is omitted or not an array — none of the four is ever `undefined`.
(The amendment: a body parsing to `null` throws on the first property access
and is treated as a failed attempt; see `null_success_body_is_treated_as_error`.) -/
theorem normalized_fields_default_when_not_null (query : String) (data : Json)
    (hnn : data ≠ Json.null) :
    ∃ sd, safeData query data = .ok sd ∧
      defaultsToList (jsField data "organic_results") sd.organic_results ∧
      defaultsToList (jsField data "related_questions") sd.related_questions ∧
      defaultsToList (jsField data "related_searches") sd.related_searches ∧
      defaultsToList (jsField data "local_results") sd.local_results :=
  ⟨_, safeData_eq query data hnn,
    defaultsToList_arrayOrEmpty _, defaultsToList_arrayOrEmpty _,
    defaultsToList_arrayOrEmpty _, defaultsToList_arrayOrEmpty _⟩

/-- Counterexample to C4 as stated: the body `null` is a successful response
body, yet it is not silently normalized — the dispatch treats every such
attempt as a failure and ends on the connectivity-trouble path. -/
theorem null_success_body_is_treated_as_error :
    safeData "q" Json.null = Except.error () ∧
    (handleSendMessage (fun _ => FetchOutcome.ok Json.null) "q").messagesAppended =
      [userMsg "q", failureMsg] ∧
    (handleSendMessage (fun _ => FetchOutcome.ok Json.null) "q").success = false :=
  ⟨rfl, rfl, rfl⟩

/-- Witness for C4 (amended): a partial payload with only `organic_results`
present. -/
theorem normalized_fields_default_when_not_null_witness :
    Json.obj [("organic_results", Json.arr [Json.str "r"])] ≠ Json.null ∧
    ∃ sd, safeData "q" (Json.obj [("organic_results", Json.arr [Json.str "r"])]) = .ok sd ∧
      defaultsToList (jsField (Json.obj [("organic_results", Json.arr [Json.str "r"])])
        "organic_results") sd.organic_results ∧
      defaultsToList (jsField (Json.obj [("organic_results", Json.arr [Json.str "r"])])
        "related_questions") sd.related_questions ∧
      defaultsToList (jsField (Json.obj [("organic_results", Json.arr [Json.str "r"])])
        "related_searches") sd.related_searches ∧
      defaultsToList (jsField (Json.obj [("organic_results", Json.arr [Json.str "r"])])
        "local_results") sd.local_results :=
  ⟨fun h => Json.noConfusion h,
   normalized_fields_default_when_not_null "q"
     (Json.obj [("organic_results", Json.arr [Json.str "r"])]) (fun h => Json.noConfusion h)⟩

/-- C5: when `ai_response` is absent from a (non-`null`) success body, the
appended assistant message's content is the templated fallback string
embedding the query, and its `results` field carries the full normalized
object. -/
theorem missing_ai_response_uses_fallback (query : String) (data : Json)
    (hnn : data ≠ Json.null) (habs : jsField data "ai_response" = none) :
    ∃ sd, safeData query data = .ok sd ∧
      sd.ai_response = .str (fallbackSummary query) ∧
      sd.local_results = arrayOrEmpty (jsField data "local_results") ∧
      (handleSendMessage (fun _ => FetchOutcome.ok data) query).messagesAppended =
        [userMsg query,
         { role := Role.assistant, content := .str (fallbackSummary query),
           results := some sd }] := by
  refine ⟨_, safeData_eq query data hnn, ?_, rfl, ?_⟩
  · show orFallback (jsField data "ai_response") query = .str (fallbackSummary query)
    rw [habs]
    rfl
  · have hfb : orFallback (jsField data "ai_response") query = .str (fallbackSummary query) := by
      rw [habs]; rfl
    have hA : attemptOutcome (fun _ => FetchOutcome.ok data) query 0 =
        .ok { role := Role.assistant, content := .str (fallbackSummary query),
              results := some
                { organic_results := arrayOrEmpty (jsField data "organic_results")
                  knowledge_graph := orNull (jsField data "knowledge_graph")
                  related_questions := arrayOrEmpty (jsField data "related_questions")
                  related_searches := arrayOrEmpty (jsField data "related_searches")
                  ai_response := orFallback (jsField data "ai_response") query
                  local_results := arrayOrEmpty (jsField data "local_results") } } := by
      simp only [attemptOutcome, safeData_eq query data hnn, hfb]
    rw [handleSendMessage_first_ok (fun _ => FetchOutcome.ok data) query _ hA]

/-- The spec's scenario payload for the query "best coffee near me": one
local result, some organic results, and no `ai_response`. -/
def coffeeData : Json :=
  Json.obj
    [("organic_results", Json.arr [Json.obj [("title", Json.str "Best coffee"),
        ("link", Json.str "https://example.com"), ("snippet", Json.str "coffee")]]),
     ("local_results", Json.arr [Json.obj [("title", Json.str "Cafe A"),
        ("address", Json.str "1 Main St"), ("rating", Json.num (9 / 2)),
        ("reviews", Json.num 120),
        ("gps_coordinates", Json.obj [("latitude", Json.num 1),
          ("longitude", Json.num 2)])]])]

/-- Witness for C5: the spec's scenario — the fallback content equals the
exact sentence and `results.local_results` has length 1. -/
theorem missing_ai_response_uses_fallback_witness :
    coffeeData ≠ Json.null ∧
    jsField coffeeData "ai_response" = none ∧
    ∃ sd, safeData "best coffee near me" coffeeData = .ok sd ∧
      sd.ai_response =
        .str "I searched for \"best coffee near me\" but couldn't generate a good summary." ∧
      sd.local_results.length = 1 := by
  refine ⟨fun h => Json.noConfusion h, rfl, ?_⟩
  obtain ⟨sd, h1, h2, h3, _⟩ :=
    missing_ai_response_uses_fallback "best coffee near me" coffeeData
      (fun h => Json.noConfusion h) rfl
  exact ⟨sd, h1, by rw [h2]; rfl, by rw [h3]; rfl⟩

/-- C10: when `ai_response` is present but falsy (the empty string, `null`,
`false`, or `0`), the assistant content is still the templated fallback —
the defaulting is decided by truthiness, not only by absence. -/
theorem falsy_ai_response_uses_fallback (query : String) (data v : Json)
    (hnn : data ≠ Json.null) (hv : jsField data "ai_response" = some v)
    (hfalsy : jsTruthy v = false) :
    ∃ sd, safeData query data = .ok sd ∧
      sd.ai_response = .str (fallbackSummary query) ∧
      (handleSendMessage (fun _ => FetchOutcome.ok data) query).messagesAppended =
        [userMsg query,
         { role := Role.assistant, content := .str (fallbackSummary query),
           results := some sd }] := by
  have hfb : orFallback (jsField data "ai_response") query = .str (fallbackSummary query) := by
    rw [hv]
    show (if jsTruthy v then v else .str (fallbackSummary query)) = _
    rw [hfalsy]
    rfl
  refine ⟨_, safeData_eq query data hnn, hfb, ?_⟩
  have hA : attemptOutcome (fun _ => FetchOutcome.ok data) query 0 =
      .ok { role := Role.assistant, content := .str (fallbackSummary query),
            results := some
              { organic_results := arrayOrEmpty (jsField data "organic_results")
                knowledge_graph := orNull (jsField data "knowledge_graph")
                related_questions := arrayOrEmpty (jsField data "related_questions")
                related_searches := arrayOrEmpty (jsField data "related_searches")
                ai_response := orFallback (jsField data "ai_response") query
                local_results := arrayOrEmpty (jsField data "local_results") } } := by
    simp only [attemptOutcome, safeData_eq query data hnn, hfb]
  rw [handleSendMessage_first_ok (fun _ => FetchOutcome.ok data) query _ hA]

/-- Witness for C10: a payload whose `ai_response` is the empty string. -/
theorem falsy_ai_response_uses_fallback_witness :
    Json.obj [("ai_response", Json.str "")] ≠ Json.null ∧
    jsField (Json.obj [("ai_response", Json.str "")]) "ai_response" = some (Json.str "") ∧
    jsTruthy (Json.str "") = false ∧
    ∃ sd, safeData "q" (Json.obj [("ai_response", Json.str "")]) = .ok sd ∧
      sd.ai_response = .str (fallbackSummary "q") ∧
      (handleSendMessage (fun _ => FetchOutcome.ok (Json.obj [("ai_response", Json.str "")]))
        "q").messagesAppended =
        [userMsg "q",
         { role := Role.assistant, content := .str (fallbackSummary "q"),
           results := some sd }] :=
  ⟨fun h => Json.noConfusion h, rfl, by decide,
   falsy_ai_response_uses_fallback "q" (Json.obj [("ai_response", Json.str "")])
     (Json.str "") (fun h => Json.noConfusion h) rfl (by decide)⟩

/-! ### Title derivation -/

lemma find?_first_user (pre post : List ChatMessage) (m : ChatMessage)
    (hpre : ∀ x ∈ pre, x.role ≠ Role.user) (hm : m.role = Role.user) :
    (pre ++ m :: post).find? (fun x => x.role == Role.user) = some m := by
  rw [List.find?_append]
  have h1 : pre.find? (fun x => x.role == Role.user) = none :=
    List.find?_eq_none.mpr (fun x hx => by simp [hpre x hx])
  rw [h1]
  simp [List.find?_cons, hm]

lemma strSlice_of_le (s : String) (h : s.length ≤ 30) : strSlice s 30 = s := by
  show String.mk (s.data.take 30) = s
  rw [List.take_of_length_le h]

lemma length_strSlice (s : String) : (strSlice s 30).length = min 30 s.length := by
  show (s.data.take 30).length = min 30 s.data.length
  rw [List.length_take]

/-- C6: the derived title is the first user message verbatim when that
message has at most 30 characters, and its first 30 characters followed by
the `...` marker when it is strictly longer. -/
theorem chat_title_verbatim_or_truncated (pre post : List ChatMessage) (m : ChatMessage)
    (hpre : ∀ x ∈ pre, x.role ≠ Role.user) (hm : m.role = Role.user) :
    (m.content.length ≤ 30 → getChatTitle (pre ++ m :: post) = m.content) ∧
    (30 < m.content.length →
      getChatTitle (pre ++ m :: post) = strSlice m.content 30 ++ "...") := by
  have hfind := find?_first_user pre post m hpre hm
  constructor
  · intro hle
    have hs : strSlice m.content 30 = m.content := strSlice_of_le m.content hle
    simp [getChatTitle, hfind, hs]
  · intro hgt
    have hlen : (strSlice m.content 30).length = 30 := by
      rw [length_strSlice]
      omega
    have hcond : (strSlice m.content 30).length < m.content.length := by omega
    simp [getChatTitle, hfind, hcond]

/-- Witness for C6: a 31-character first user message is truncated to its
first 30 characters plus the marker. -/
theorem chat_title_verbatim_or_truncated_witness :
    30 < ("abcdefghijklmnopqrstuvwxyz12345" : String).length ∧
    getChatTitle
        ([] ++ ({ role := Role.user, content := "abcdefghijklmnopqrstuvwxyz12345" } :
          ChatMessage) :: []) =
      strSlice "abcdefghijklmnopqrstuvwxyz12345" 30 ++ "..." :=
  ⟨by decide,
   (chat_title_verbatim_or_truncated [] []
      { role := Role.user, content := "abcdefghijklmnopqrstuvwxyz12345" }
      (fun x hx => absurd hx (List.not_mem_nil x)) rfl).2 (by decide)⟩

/-! ### Session deletion -/

/-- C7: `deleteSession` removes the session with the given id; when that
session was active and others remain, the first remaining session becomes
active with its messages loaded; when it was the last session, a fresh
session is created, so the list ends with length exactly 1. -/
theorem delete_session_behaviour (now : Nat) (st : StoreState) (sessionId : String) :
    (st.activeSessionId ≠ some sessionId →
      deleteSession now st sessionId =
        { st with sessions := st.sessions.filter (fun s => !(s.id == sessionId)) }) ∧
    (st.activeSessionId = some sessionId →
      ∀ next rest, st.sessions.filter (fun s => !(s.id == sessionId)) = next :: rest →
        (deleteSession now st sessionId).sessions = next :: rest ∧
        (deleteSession now st sessionId).activeSessionId = some next.id ∧
        (deleteSession now st sessionId).messages = next.messages) ∧
    (st.activeSessionId = some sessionId →
      st.sessions.filter (fun s => !(s.id == sessionId)) = [] →
      (deleteSession now st sessionId).sessions.length = 1 ∧
      (deleteSession now st sessionId).sessions =
        [{ id := generateId st.nextId, title := "New Chat", messages := [],
           createdAt := now, updatedAt := now }] ∧
      (deleteSession now st sessionId).activeSessionId = some (generateId st.nextId) ∧
      (deleteSession now st sessionId).messages = []) := by
  refine ⟨?_, ?_, ?_⟩
  · intro hne
    have hb : (st.activeSessionId == some sessionId) = false := by
      simp [hne]
    simp [deleteSession, hb]
  · intro heq next rest hrem
    have hb : (st.activeSessionId == some sessionId) = true := by
      simp [heq]
    simp [deleteSession, hb, hrem]
  · intro heq hrem
    have hb : (st.activeSessionId == some sessionId) = true := by
      simp [heq]
    simp [deleteSession, hb, hrem, createNewSession]

/-- The two demo sessions used in store witnesses. -/
def demoSessA : ChatSession :=
  { id := "a", title := "A", messages := [], createdAt := 0, updatedAt := 0 }

def demoSessB : ChatSession :=
  { id := "b", title := "B",
    messages := [{ role := Role.assistant, content := "welcome" }],
    createdAt := 0, updatedAt := 1 }

def demoStore : StoreState :=
  { sessions := [demoSessA, demoSessB], activeSessionId := some "a",
    messages := [], nextId := 0 }

/-- Witness for C7: deleting the active session "a" with "b" remaining
activates "b" and loads its messages. -/
theorem delete_session_behaviour_witness :
    (deleteSession 7 demoStore "a").sessions = [demoSessB] ∧
    (deleteSession 7 demoStore "a").activeSessionId = some demoSessB.id ∧
    (deleteSession 7 demoStore "a").messages = demoSessB.messages :=
  (delete_session_behaviour 7 demoStore "a").2.1 rfl demoSessB [] rfl

/-! ### The load effect -/

/-- C8 (amended): at startup with no persisted data a session is created;
with a non-empty persisted list, the session with the greatest `updatedAt`
becomes active and its messages are loaded — but the stored session list is
the `updatedAt`-descending reordering of the persisted list (the in-place
`sort` mutates the array passed to `setSessions`), not the persisted
insertion order.  The stored list is still a permutation of the persisted
one. -/
theorem load_activates_most_recent_but_reorders (now : Nat) (st : StoreState)
    (parsed : List ChatSession) (hne : parsed ≠ []) :
    (∃ mostRecent rest,
      sortByUpdatedDesc parsed = mostRecent :: rest ∧
      (loadSessions now st (some parsed)).sessions = mostRecent :: rest ∧
      (loadSessions now st (some parsed)).activeSessionId = some mostRecent.id ∧
      (loadSessions now st (some parsed)).messages = mostRecent.messages ∧
      mostRecent ∈ parsed ∧
      (∀ s ∈ parsed, s.updatedAt ≤ mostRecent.updatedAt) ∧
      (loadSessions now st (some parsed)).sessions.Perm parsed) ∧
    (loadSessions now st none).sessions.length = st.sessions.length + 1 := by
  have hperm : (sortByUpdatedDesc parsed).Perm parsed :=
    List.perm_insertionSort recencyLE parsed
  have hsorted : List.Sorted recencyLE (sortByUpdatedDesc parsed) :=
    List.sorted_insertionSort recencyLE parsed
  have hne' : sortByUpdatedDesc parsed ≠ [] := by
    intro h
    rw [h] at hperm
    exact hne (hperm.symm.eq_nil)
  obtain ⟨mostRecent, rest, hcons⟩ := List.exists_cons_of_ne_nil hne'
  have hlen : 0 < parsed.length := List.length_pos.mpr hne
  refine ⟨⟨mostRecent, rest, hcons, ?_, ?_, ?_, ?_, ?_, ?_⟩, ?_⟩
  · simp [loadSessions, hlen, hcons]
  · simp [loadSessions, hlen, hcons]
  · simp [loadSessions, hlen, hcons]
  · exact hperm.mem_iff.mp (hcons ▸ List.mem_cons_self mostRecent rest)
  · intro s hs
    have hs' : s ∈ sortByUpdatedDesc parsed := hperm.mem_iff.mpr hs
    rw [hcons] at hs'
    rcases List.mem_cons.mp hs' with h | h
    · rw [h]
    · exact List.rel_of_sorted_cons (hcons ▸ hsorted) s h
  · have : (loadSessions now st (some parsed)).sessions = sortByUpdatedDesc parsed := by
      simp [loadSessions, hlen]
    rw [this]
    exact hperm
  · simp [loadSessions, createNewSession]

/-- The persisted sessions used in the C8 refutation: `cexOlder` precedes
`cexNewer` in the persisted blob, but was updated earlier. -/
def cexOlder : ChatSession :=
  { id := "a", title := "A", messages := [], createdAt := 0, updatedAt := 1 }

def cexNewer : ChatSession :=
  { id := "b", title := "B", messages := [], createdAt := 0, updatedAt := 2 }

/-- Counterexample to C8 as stated: loading the persisted list
`[cexOlder, cexNewer]` does not retain the persisted insertion order — the
in-place sort reorders the stored list to most-recently-updated first. -/
theorem load_reorders_session_list :
    (loadSessions 0 initialState (some [cexOlder, cexNewer])).sessions ≠
      [cexOlder, cexNewer] := by
  have h : (loadSessions 0 initialState (some [cexOlder, cexNewer])).sessions =
      [cexNewer, cexOlder] := rfl
  rw [h]
  intro hEq
  have hid := congrArg (fun l => (l.headD cexOlder).id) hEq
  simp only [List.headD_cons] at hid
  exact absurd hid (by decide)

/-- Witness for C8 (amended): loading two persisted sessions activates the
most recently updated one and reorders the stored list. -/
theorem load_activates_most_recent_but_reorders_witness :
    ([cexOlder, cexNewer] : List ChatSession) ≠ [] ∧
    ∃ mostRecent rest,
      sortByUpdatedDesc [cexOlder, cexNewer] = mostRecent :: rest ∧
      (loadSessions 0 initialState (some [cexOlder, cexNewer])).sessions =
        mostRecent :: rest ∧
      (loadSessions 0 initialState (some [cexOlder, cexNewer])).activeSessionId =
        some mostRecent.id ∧
      (loadSessions 0 initialState (some [cexOlder, cexNewer])).messages =
        mostRecent.messages ∧
      mostRecent ∈ [cexOlder, cexNewer] ∧
      (∀ s ∈ [cexOlder, cexNewer], s.updatedAt ≤ mostRecent.updatedAt) ∧
      (loadSessions 0 initialState (some [cexOlder, cexNewer])).sessions.Perm
        [cexOlder, cexNewer] :=
  ⟨fun h => List.noConfusion h,
   (load_activates_most_recent_but_reorders 0 initialState [cexOlder, cexNewer]
     (fun h => List.noConfusion h)).1⟩

/-! ### The create/delete invariant -/

lemma generateId_injective : Function.Injective generateId := by
  intro a b h
  have h2 := congrArg (fun s => s.data.length) h
  simpa [generateId] using h2

/-- The store invariant maintained by `createSession` / `deleteSession`:
the session list is never empty, ids are distinct, the active id matches
exactly one session, and every id came from the fresh-id supply below the
counter. -/
def storeInv (st : StoreState) : Prop :=
  st.sessions ≠ [] ∧
  (st.sessions.map (fun s => s.id)).Nodup ∧
  st.sessions.countP (fun s => decide (st.activeSessionId = some s.id)) = 1 ∧
  ∀ s ∈ st.sessions, ∃ k, k < st.nextId ∧ s.id = generateId k

lemma countP_eq_one_of_nodup_ids :
    ∀ (l : List ChatSession), (l.map (fun s => s.id)).Nodup →
      ∀ x ∈ l, l.countP (fun s => decide ((some x.id : Option String) = some s.id)) = 1 := by
  intro l
  induction l with
  | nil => intro _ x hx; exact absurd hx (List.not_mem_nil x)
  | cons y ys ih =>
    intro hn x hx
    rw [List.map_cons, List.nodup_cons] at hn
    obtain ⟨hy, hn'⟩ := hn
    rcases List.mem_cons.mp hx with h | h
    · subst h
      rw [List.countP_cons]
      have hzero : ys.countP (fun s => decide ((some x.id : Option String) = some s.id)) = 0 := by
        rw [List.countP_eq_zero]
        intro s hs hpred
        rw [decide_eq_true_eq, Option.some.injEq] at hpred
        exact hy (hpred ▸ List.mem_map_of_mem (fun s => s.id) hs)
      rw [hzero]
      simp
    · rw [List.countP_cons, ih hn' x h]
      have hyfalse : (decide ((some x.id : Option String) = some y.id)) = false := by
        rw [decide_eq_false_iff_not]
        intro hxy
        rw [Option.some.injEq] at hxy
        exact hy (hxy ▸ List.mem_map_of_mem (fun s => s.id) h)
      rw [hyfalse]
      simp

lemma storeInv_createNewSession (now : Nat) (st : StoreState)
    (hn : (st.sessions.map (fun s => s.id)).Nodup)
    (hf : ∀ s ∈ st.sessions, ∃ k, k < st.nextId ∧ s.id = generateId k) :
    storeInv (createNewSession now st) := by
  refine ⟨by simp [createNewSession], ?_, ?_, ?_⟩
  · show (generateId st.nextId :: st.sessions.map (fun s : ChatSession => s.id)).Nodup
    rw [List.nodup_cons]
    refine ⟨?_, hn⟩
    intro hmem
    obtain ⟨s, hs, hsid⟩ := List.mem_map.mp hmem
    obtain ⟨k, hk, hkid⟩ := hf s hs
    rw [hkid] at hsid
    exact absurd (generateId_injective hsid) (by omega)
  · show List.countP (fun s : ChatSession => decide (some (generateId st.nextId) = some s.id))
      ({ id := generateId st.nextId, title := "New Chat", messages := [],
         createdAt := now, updatedAt := now } :: st.sessions) = 1
    rw [List.countP_cons]
    have hzero : st.sessions.countP
        (fun s => decide ((some (generateId st.nextId) : Option String) = some s.id)) = 0 := by
      rw [List.countP_eq_zero]
      intro s hs hpred
      rw [decide_eq_true_eq, Option.some.injEq] at hpred
      obtain ⟨k, hk, hkid⟩ := hf s hs
      rw [hkid] at hpred
      exact absurd (generateId_injective hpred) (by omega)
    rw [hzero]
    simp
  · intro s hs
    rcases List.mem_cons.mp hs with h | h
    · exact ⟨st.nextId, Nat.lt_succ_self st.nextId, by rw [h]⟩
    · obtain ⟨k, hk, hkid⟩ := hf s h
      exact ⟨k, Nat.lt_succ_of_lt hk, hkid⟩

lemma storeInv_deleteSession (now : Nat) (st : StoreState) (sessionId : String)
    (h : storeInv st) : storeInv (deleteSession now st sessionId) := by
  obtain ⟨hne, hnodup, hcount, hfresh⟩ := h
  have hnodup' : ((st.sessions.filter (fun s => !(s.id == sessionId))).map
      (fun s => s.id)).Nodup :=
    ((List.filter_sublist st.sessions).map (fun s => s.id)).nodup hnodup
  have hfresh' : ∀ s ∈ st.sessions.filter (fun s => !(s.id == sessionId)),
      ∃ k, k < st.nextId ∧ s.id = generateId k :=
    fun s hs => hfresh s (List.mem_of_mem_filter hs)
  by_cases hguard : st.activeSessionId = some sessionId
  · have hb : (st.activeSessionId == some sessionId) = true := by simp [hguard]
    cases hrem : st.sessions.filter (fun s => !(s.id == sessionId)) with
    | nil =>
      have : deleteSession now st sessionId =
          createNewSession now { st with sessions := [] } := by
        simp [deleteSession, hb, hrem]
      rw [this]
      exact storeInv_createNewSession now { st with sessions := [] }
        (by simp) (by simp)
    | cons next rest =>
      have hstate : deleteSession now st sessionId =
          { st with sessions := next :: rest, activeSessionId := some next.id,
                    messages := next.messages } := by
        simp [deleteSession, hb, hrem]
      rw [hstate]
      refine ⟨by simp, by rw [← hrem]; exact hnodup', ?_, ?_⟩
      · exact countP_eq_one_of_nodup_ids (next :: rest) (hrem ▸ hnodup') next
          (List.mem_cons_self next rest)
      · intro s hs
        exact hfresh' s (hrem ▸ hs)
  · have hb : (st.activeSessionId == some sessionId) = false := by simp [hguard]
    have hstate : deleteSession now st sessionId =
        { st with sessions := st.sessions.filter (fun s => !(s.id == sessionId)) } := by
      simp [deleteSession, hb]
    rw [hstate]
    obtain ⟨a, ha, hapred⟩ := List.countP_pos_iff.mp (by rw [hcount]; norm_num)
    rw [decide_eq_true_eq] at hapred
    have haid : a.id ≠ sessionId := by
      intro hh
      exact hguard (by rw [hapred, hh])
    have hamem : a ∈ st.sessions.filter (fun s => !(s.id == sessionId)) :=
      List.mem_filter.mpr ⟨ha, by simp [haid]⟩
    refine ⟨List.ne_nil_of_mem hamem, hnodup', ?_, hfresh'⟩
    · rw [List.countP_filter]
      rw [← hcount]
      apply List.countP_congr
      intro s hs
      constructor
      · intro hh
        rw [Bool.and_eq_true] at hh
        exact hh.1
      · intro hh
        rw [Bool.and_eq_true]
        refine ⟨hh, ?_⟩
        rw [decide_eq_true_eq] at hh
        have : s.id ≠ sessionId := by
          intro h2
          exact hguard (by rw [hh, h2])
        simp [this]

lemma storeInv_applySessionOp (st : StoreState) (op : SessionOp) (h : storeInv st) :
    storeInv (applySessionOp st op) := by
  cases op with
  | create now => exact storeInv_createNewSession now st h.2.1 h.2.2.2
  | delete now id => exact storeInv_deleteSession now st id h

lemma storeInv_runSessionOps (ops : List SessionOp) :
    ∀ st : StoreState, storeInv st → storeInv (runSessionOps st ops) := by
  induction ops with
  | nil => exact fun st h => h
  | cons op ops ih =>
    intro st h
    exact ih (applySessionOp st op) (storeInv_applySessionOp st op h)

lemma storeInv_initStore : storeInv initStore := by
  show storeInv (createNewSession 0 initialState)
  exact storeInv_createNewSession 0 initialState (by simp [initialState])
    (by simp [initialState])

/-- C9: after any finite sequence of `createSession` / `deleteSession`
operations from the freshly initialized store, the session list is non-empty
and the active session id refers to exactly one session in the list (so the
list in particular can never be left empty: deleting the last session
auto-creates a fresh one within the same operation). -/
theorem session_ops_active_invariant (ops : List SessionOp) :
    (runSessionOps initStore ops).sessions ≠ [] ∧
    (runSessionOps initStore ops).sessions.countP
      (fun s => decide ((runSessionOps initStore ops).activeSessionId = some s.id)) = 1 := by
  have h := storeInv_runSessionOps ops initStore storeInv_initStore
  exact ⟨h.1, h.2.2.1⟩

end GoogleChat
